import Mathlib

/-!
Verification development for the voronoi-designer geometry core.

The TypeScript source is shallowly embedded as follows.

* JavaScript numbers are idealized as exact arithmetic: functions whose
  operations stay inside field arithmetic (the seeded RNG, the point
  sampler, the ray-casting containment tests, the circumcircle test) are
  modelled over `ℚ`, so they are computable and decidable on concrete
  inputs; functions that use `Math.sqrt` / `Math.sin` / `Math.cos` /
  `Math.PI` (jagged-circle generation, corner rounding, polygon inset,
  DXF export) are modelled over `ℝ`.
* The JavaScript `%` operator on numbers truncates toward zero (the
  remainder carries the sign of the dividend), so the RNG state update is
  modelled with `Int.tmod`, not `Int.emod`.
* `Math.sqrt(dx*dx+dy*dy) <= r` in the `ℚ`-modelled containment test is
  encoded by the exactly equivalent rational condition
  `0 ≤ r ∧ dx*dx+dy*dy ≤ r*r`.
* `Math.ceil(Math.sqrt q)` is modelled by `ratCeilSqrt`, the exact
  `⌈√q⌉` on nonnegative rationals.  For `q < 0` JavaScript produces `NaN`
  there (and `x/0` produces `Infinity`); in the model these corners return
  `0`.  They are only reachable in states whose candidate points are
  rejected by the bounds check in both semantics, so no settled claim
  depends on them.
* Mutable closures (`seedFunction`) become explicit state passing; the
  `attempts < maxAttempts` loop guard becomes structural recursion on the
  remaining fuel `maxAttempts - attempts`, and the loop additionally
  reports how many iterations (candidate attempts) it executed.
* The Delaunay triangulation itself is performed by the external
  `d3-delaunay` library, whose source is not part of this repository;
  it is modelled from the spec (see `delaunayTriangles`).  Likewise the
  Voronoi cell polygons and triangle index array consumed by the DXF
  export are external library outputs and enter the export model as
  parameters (`ExportCfg.cells`, `ExportCfg.triangles`).
-/

namespace VoronoiDesigner

/-- A 2D point with rational coordinates (idealized `{x: number, y: number}`). -/
structure Pt where
  x : ℚ
  y : ℚ
deriving DecidableEq, Repr

/-! ### SeededRng (`seedFunction`, src/unnamed/part_001 lines 54-59)

`seedFunction` returns a closure over a mutable `seed`; each call performs
`seed = (seed * 9301 + 49297) % 233280; return seed / 233280`. -/

/-- One state update of the seeded RNG: `(seed * 9301 + 49297) % 233280`,
with JavaScript truncated remainder (`Int.tmod`). -/
def seedStep (seed : ℤ) : ℤ :=
  (seed * 9301 + 49297).tmod 233280

/-- The value returned by a call whose updated state is `seed`:
`seed / 233280`. -/
def seedOutput (seed : ℤ) : ℚ :=
  (seed : ℚ) / 233280

/-- The sequence of values produced by `n` successive calls to the closure
returned by `seedFunction(seed)`. -/
def seededRandomRun (seed : ℤ) : ℕ → List ℚ
  | 0 => []
  | n + 1 => seedOutput (seedStep seed) :: seededRandomRun (seedStep seed) n

/-! ### Containment tests (src/unnamed/part_001 lines 190-248) -/

/-- One iteration of the ray-casting loop of `isPointInPolygon`: `vi` is the
current vertex, `vj` the previous one, `inside` the accumulator. -/
def rayCastStep (p : Pt) (vi vj : Pt) (inside : Bool) : Bool :=
  if (decide (vi.y > p.y) != decide (vj.y > p.y)) &&
      decide (p.x < (vj.x - vi.x) * (p.y - vi.y) / (vj.y - vi.y) + vi.x) then
    !inside
  else inside

/-- `isPointInPolygon`: even-odd ray casting; fewer than 3 vertices return
`true`.  The source iterates `i` over all indices with `j` the previous
index (starting at `length - 1`), i.e. `j = (i + n - 1) % n`. -/
def isPointInPolygon (p : Pt) (polygon : List Pt) : Bool :=
  if polygon.length < 3 then true
  else
    (List.range polygon.length).foldl
      (fun inside i =>
        rayCastStep p (polygon.getD i ⟨0, 0⟩)
          (polygon.getD ((i + polygon.length - 1) % polygon.length) ⟨0, 0⟩) inside)
      false

/-- The jagged-circle boundary record (`JaggedCircle`). -/
structure JaggedCircle where
  center : Pt
  baseRadius : ℚ
  jaggedPoints : List Pt
deriving DecidableEq, Repr

/-- `isPointInJaggedCircle`: with an empty vertex list it falls back to the
exact-circle distance test `Math.sqrt(dx*dx+dy*dy) <= baseRadius`
(encoded rationally as `0 ≤ r ∧ dx*dx+dy*dy ≤ r*r`); otherwise it ray-casts
against the jagged ring. -/
def isPointInJaggedCircle (p : Pt) (c : JaggedCircle) : Bool :=
  if c.jaggedPoints.length = 0 then
    decide (0 ≤ c.baseRadius ∧
      (p.x - c.center.x) * (p.x - c.center.x) +
        (p.y - c.center.y) * (p.y - c.center.y) ≤ c.baseRadius * c.baseRadius)
  else isPointInPolygon p c.jaggedPoints

/-- The component state captured by the sampler's closures: canvas size,
boundary toggle, boundary circle and randomness slider value (0-100). -/
structure SamplerCfg where
  width : ℚ
  height : ℚ
  useCustomShape : Bool
  customCircle : Option JaggedCircle
  randomness : ℚ
deriving DecidableEq, Repr

/-- `isPointInCustomShape`: delegates to the jagged-circle test when a
custom circle exists, else `true`. -/
def isPointInCustomShape (cfg : SamplerCfg) (p : Pt) : Bool :=
  match cfg.customCircle with
  | some c => isPointInJaggedCircle p c
  | none => true

/-! ### PointSampler (`generateRandomPoints`, src/unnamed/part_001 lines 62-157) -/

/-- The unconditionally inserted first point: the custom circle's center
when the custom boundary is active, else the canvas center. -/
def centerPoint (cfg : SamplerCfg) : Pt :=
  match cfg.useCustomShape, cfg.customCircle with
  | true, some c => c.center
  | _, _ => ⟨cfg.width / 2, cfg.height / 2⟩

/-- Exact model of `Math.ceil(Math.sqrt q)` for `0 < q`: the least `n` with
`q ≤ n^2`.  For `q ≤ 0` it returns `0` (JavaScript yields `0` at `q = 0`
and `NaN` for `q < 0`; the `NaN` corner is unobservable, see the header). -/
def ratCeilSqrt (q : ℚ) : ℕ :=
  if q ≤ 0 then 0
  else
    let r := Nat.sqrt (⌈q⌉).toNat
    if q ≤ (r : ℚ) ^ 2 then r else r + 1

/-- The grid-based candidate of one loop iteration: cell center plus RNG
jitter.  `deviation` is `min(cellWidth, cellHeight) * 0.2` in the low
randomness branch and `min(cellWidth, cellHeight) * randomnessFactor` in
the blended branch.  Returns the candidate point and the RNG state after
the two draws. -/
def gridCandidate (cw ch : ℚ) (cols : ℕ) (deviation : ℚ) (i : ℕ) (s : ℤ) : Pt × ℤ :=
  let col := i % cols
  let row := i / cols
  let baseX := 20 + (col : ℚ) * cw + cw / 2
  let baseY := 20 + (row : ℚ) * ch + ch / 2
  let s1 := seedStep s
  let s2 := seedStep s1
  (⟨baseX + (seedOutput s1 - 1/2) * deviation,
    baseY + (seedOutput s2 - 1/2) * deviation⟩, s2)

/-- The candidate of one iteration of the blended (`randomnessFactor ≥ 0.1`)
branch: one draw decides between fully random placement and grid placement
with deviation scaled by the randomness factor. -/
def blendedCandidate (effW effH cw ch : ℚ) (cols : ℕ) (factor : ℚ) (i : ℕ) (s : ℤ) :
    Pt × ℤ :=
  let s0 := seedStep s
  if seedOutput s0 < factor then
    let s1 := seedStep s0
    let s2 := seedStep s1
    (⟨20 + seedOutput s1 * effW, 20 + seedOutput s2 * effH⟩, s2)
  else
    gridCandidate cw ch cols (min cw ch * factor) i s0

/-- The acceptance check of `generateRandomPoints`: inside the margin-inset
rectangle and (when the custom boundary is on) inside the custom shape. -/
def acceptPoint (cfg : SamplerCfg) (p : Pt) : Bool :=
  decide (20 ≤ p.x) && decide (p.x ≤ cfg.width - 20) &&
    decide (20 ≤ p.y) && decide (p.y ≤ cfg.height - 20) &&
    (!cfg.useCustomShape || isPointInCustomShape cfg p)

/-- The sampling loop
`for (let i = 0; i < remainingCount && attempts < maxAttempts; attempts++)`.
`fuel` is `maxAttempts - attempts`; the result pairs the accepted points
(in insertion order) with the number of iterations (candidate attempts)
actually executed. -/
def sampleLoop (cfg : SamplerCfg) (cand : ℕ → ℤ → Pt × ℤ) (remaining : ℤ) :
    ℕ → ℕ → ℤ → List Pt × ℕ
  | 0, _, _ => ([], 0)
  | fuel + 1, i, s =>
    if (i : ℤ) < remaining then
      if acceptPoint cfg (cand i s).1 then
        ((cand i s).1 :: (sampleLoop cfg cand remaining fuel (i + 1) (cand i s).2).1,
          (sampleLoop cfg cand remaining fuel (i + 1) (cand i s).2).2 + 1)
      else
        ((sampleLoop cfg cand remaining fuel i (cand i s).2).1,
          (sampleLoop cfg cand remaining fuel i (cand i s).2).2 + 1)
    else ([], 0)

/-- `generateRandomPoints` (src/unnamed/part_001), instrumented to also
return the number of candidate attempts consumed.  The source computes
`remainingCount`, `cols`, `rows`, `cellWidth`, `cellHeight` separately
inside each branch of the `randomnessFactor < 0.1` conditional, with
identical formulas; they are hoisted here. -/
def generateRandomPointsRun (cfg : SamplerCfg) (count : ℕ) (seedValue : ℤ) :
    List Pt × ℕ :=
  let effW := cfg.width - 2 * 20
  let effH := cfg.height - 2 * 20
  let maxAttempts := count * 10
  let cp := centerPoint cfg
  let randomnessFactor := cfg.randomness / 100
  let remainingCount : ℤ := (count : ℤ) - 1
  let cols := ratCeilSqrt ((remainingCount : ℚ) * (effW / effH))
  let rows := (⌈(remainingCount : ℚ) / (cols : ℚ)⌉).toNat
  let cw := effW / (cols : ℚ)
  let ch := effH / (rows : ℚ)
  let run :=
    if randomnessFactor < 1/10 then
      sampleLoop cfg (gridCandidate cw ch cols (min cw ch * (2/10)))
        remainingCount maxAttempts 0 seedValue
    else
      sampleLoop cfg (blendedCandidate effW effH cw ch cols randomnessFactor)
        remainingCount maxAttempts 0 seedValue
  (cp :: run.1, run.2)

/-- The point list returned by `generateRandomPoints`. -/
def generateRandomPoints (cfg : SamplerCfg) (count : ℕ) (seedValue : ℤ) : List Pt :=
  (generateRandomPointsRun cfg count seedValue).1

/-- The number of candidate attempts consumed by `generateRandomPoints`
(the final value of its `attempts` counter). -/
def samplerAttempts (cfg : SamplerCfg) (count : ℕ) (seedValue : ℤ) : ℕ :=
  (generateRandomPointsRun cfg count seedValue).2

/-! ### TessellationEngine (spec-modelled)

The triangulation is computed via `Delaunay.from` of the external
`d3-delaunay` library; that code is not part of this repository. -/

/-- Twice the signed area of the triangle `a b c` (orientation test). -/
def orient (a b c : Pt) : ℚ :=
  (b.x - a.x) * (c.y - a.y) - (b.y - a.y) * (c.x - a.x)

/-- The standard in-circle determinant for the triangle `a b c` and query
point `p`: the 3x3 determinant of the rows
`(v.x - p.x, v.y - p.y, (v.x - p.x)^2 + (v.y - p.y)^2)` for `v = a, b, c`. -/
def inCircleDet (a b c p : Pt) : ℚ :=
  let ax := a.x - p.x
  let ay := a.y - p.y
  let bx := b.x - p.x
  let bb := b.y - p.y
  let cx := c.x - p.x
  let cy := c.y - p.y
  let aw := ax * ax + ay * ay
  let bw := bx * bx + bb * bb
  let cw := cx * cx + cy * cy
  ax * (bb * cw - bw * cy) - ay * (bx * cw - bw * cx) + aw * (bx * cy - bb * cx)

/-- `p` lies strictly inside the circumcircle of the (nondegenerate)
triangle `a b c`: the in-circle determinant and the orientation have the
same sign, which makes the test independent of vertex order. -/
def strictlyInsideCircumcircle (a b c p : Pt) : Prop :=
  0 < orient a b c * inCircleDet a b c p

instance (a b c p : Pt) : Decidable (strictlyInsideCircumcircle a b c p) :=
  inferInstanceAs (Decidable (0 < orient a b c * inCircleDet a b c p))

/-- The candidate index triple `(i, j, k)` over `pts` is a nondegenerate
triangle whose circumcircle contains no other input point strictly inside. -/
def triangleOk (pts : List Pt) (i j k : ℕ) : Bool :=
  decide (orient (pts.getD i ⟨0, 0⟩) (pts.getD j ⟨0, 0⟩) (pts.getD k ⟨0, 0⟩) ≠ 0) &&
    (List.range pts.length).all fun m =>
      decide (m = i) || decide (m = j) || decide (m = k) ||
        !decide (strictlyInsideCircumcircle (pts.getD i ⟨0, 0⟩) (pts.getD j ⟨0, 0⟩)
          (pts.getD k ⟨0, 0⟩) (pts.getD m ⟨0, 0⟩))

/-- Modelled from the spec: the Delaunay triangulation of the tessellation
step is produced by the external `d3-delaunay` library (`Delaunay.from`),
whose source is missing from this repository.  Per the spec it is "an
empty-circumcircle (Delaunay) construction": the triangles are exactly the
ordered index triples whose circumcircle contains no other input point
strictly inside. -/
def delaunayTriangles (pts : List Pt) : List (ℕ × ℕ × ℕ) :=
  ((List.range pts.length).flatMap fun i =>
    (List.range pts.length).flatMap fun j =>
      (List.range pts.length).map fun k => (i, j, k)).filter
    fun t => decide (t.1 < t.2.1) && decide (t.2.1 < t.2.2) &&
      triangleOk pts t.1 t.2.1 t.2.2

/-- Four concrete input points (a square) used to exercise the
triangulation model. -/
def pts4 : List Pt := [⟨0, 0⟩, ⟨2, 0⟩, ⟨0, 2⟩, ⟨2, 2⟩]

/-! ### Real-valued geometry

Functions below use `Math.sqrt` / `Math.sin` / `Math.cos` / `Math.PI`
and are modelled over `ℝ`. -/

/-- Euclidean distance `Math.sqrt(dx*dx + dy*dy)` between two points. -/
noncomputable def ptDist (a b : ℝ × ℝ) : ℝ :=
  Real.sqrt ((a.1 - b.1) * (a.1 - b.1) + (a.2 - b.2) * (a.2 - b.2))

/-! ### CellPolygonProcessor: inset (`createInsetPolygon`) -/

/-- `createInsetPolygon`: move every vertex toward the centroid by
`offset` along the unit vertex-to-centroid direction; vertices at the
centroid are left unmoved; polygons with fewer than 3 vertices are
returned unchanged. -/
noncomputable def createInsetPolygon (polygon : List (ℝ × ℝ)) (offset : ℝ) :
    List (ℝ × ℝ) :=
  if polygon.length < 3 then polygon
  else
    let cx := (polygon.map Prod.fst).sum / polygon.length
    let cy := (polygon.map Prod.snd).sum / polygon.length
    polygon.map fun p =>
      let dx := cx - p.1
      let dy := cy - p.2
      let length := Real.sqrt (dx * dx + dy * dy)
      if length = 0 then p
      else (p.1 + dx / length * offset, p.2 + dy / length * offset)

/-! ### CellPolygonProcessor: rounding (`createRoundedPolygonPoints`,
src/unnamed/part_000 lines 110-176 and src/app/page.tsx lines 173-239) -/

/-- The effective corner radius at a vertex:
`Math.min(radius, prevLength / 2, nextLength / 2)`. -/
noncomputable def effRadius (prev current next : ℝ × ℝ) (radius : ℝ) : ℝ :=
  min radius (min (ptDist prev current / 2) (ptDist next current / 2))

/-- A corner-offset point: the vertex `current` moved distance `e` along
the unit vector toward the neighbor `nb`
(`current + toNeighbor / length * e`, componentwise). -/
noncomputable def cornerStartPt (nb current : ℝ × ℝ) (e : ℝ) : ℝ × ℝ :=
  (current.1 + (nb.1 - current.1) / ptDist nb current * e,
   current.2 + (nb.2 - current.2) / ptDist nb current * e)

/-- The `j`-th point (of `j = 0, ..., numSegments`) emitted for one corner:
the linear interpolation at `t = j / 8` between the two corner-offset
points, bulged toward the vertex by the sinusoidal factor
`sin(t * π) * 0.3` times the effective radius (the loop body of
`createRoundedPolygonPoints`). -/
noncomputable def cornerArcPoint (prev current next : ℝ × ℝ) (radius : ℝ)
    (j : ℕ) : ℝ × ℝ :=
  let effectiveRadius := effRadius prev current next radius
  let cornerStart := cornerStartPt prev current effectiveRadius
  let cornerEnd := cornerStartPt next current effectiveRadius
  let t : ℝ := (j : ℝ) / 8
  let arcX := cornerStart.1 + (cornerEnd.1 - cornerStart.1) * t
  let arcY := cornerStart.2 + (cornerEnd.2 - cornerStart.2) * t
  let centerX := (cornerStart.1 + cornerEnd.1) / 2
  let centerY := (cornerStart.2 + cornerEnd.2) / 2
  let toCenterX := current.1 - centerX
  let toCenterY := current.2 - centerY
  let toCenterLength := Real.sqrt (toCenterX * toCenterX + toCenterY * toCenterY)
  if 0 < toCenterLength then
    let arcFactor := Real.sin (t * Real.pi) * (3 / 10)
    (arcX + toCenterX / toCenterLength * effectiveRadius * arcFactor,
     arcY + toCenterY / toCenterLength * effectiveRadius * arcFactor)
  else (arcX, arcY)

/-- The block of points emitted by `createRoundedPolygonPoints` for one
vertex `current` with neighbors `prev` and `next`: the single vertex when
an adjacent edge has zero length, otherwise the `numSegments + 1 = 9`
points of the interpolated arc. -/
noncomputable def cornerBlock (prev current next : ℝ × ℝ) (radius : ℝ) :
    List (ℝ × ℝ) :=
  let prevLength := ptDist prev current
  let nextLength := ptDist next current
  if prevLength = 0 ∨ nextLength = 0 then [current]
  else (List.range (8 + 1)).map (cornerArcPoint prev current next radius)

/-- `createRoundedPolygonPoints`: polygons with fewer than 3 vertices are
returned unchanged; otherwise the per-vertex corner blocks are
concatenated in vertex order. -/
noncomputable def createRoundedPolygonPoints (polygon : List (ℝ × ℝ)) (radius : ℝ) :
    List (ℝ × ℝ) :=
  if polygon.length < 3 then polygon
  else
    ((List.range polygon.length).map fun i =>
      cornerBlock (polygon.getD ((i + polygon.length - 1) % polygon.length) (0, 0))
        (polygon.getD i (0, 0))
        (polygon.getD ((i + 1) % polygon.length) (0, 0)) radius).flatten

/-! ### JaggedBoundaryGenerator (`generateJaggedCircle`,
src/unnamed/part_001 lines 204-226) -/

/-- The loop of `generateJaggedCircle`: one RNG draw per vertex, mapped to
a radius offset `(sample - 0.5) * 2 * jaggednessFactor * baseRadius`,
with the vertex emitted at angle `i * angleStep`.  `fuel` counts the
remaining vertices, `i` the running index, `s` the RNG state. -/
noncomputable def jaggedLoop (center : ℝ × ℝ) (baseRadius angleStep jaggednessFactor : ℝ) :
    ℕ → ℕ → ℤ → List (ℝ × ℝ)
  | 0, _, _ => []
  | n + 1, i, s =>
    let s1 := seedStep s
    let radiusVariation := ((seedOutput s1 : ℚ) - 1/2) * 2 * jaggednessFactor * baseRadius
    let radius := baseRadius + radiusVariation
    (center.1 + radius * Real.cos ((i : ℝ) * angleStep),
      center.2 + radius * Real.sin ((i : ℝ) * angleStep)) ::
      jaggedLoop center baseRadius angleStep jaggednessFactor n (i + 1) s1

/-- `generateJaggedCircle`: `jaggedPointCount` vertices at angle step
`2π / jaggedPointCount`, with jaggedness rescaled by `/ 100`. -/
noncomputable def generateJaggedCircle (center : ℝ × ℝ) (baseRadius : ℝ)
    (jaggedPointCount : ℕ) (jaggedness : ℝ) (seedValue : ℤ) : List (ℝ × ℝ) :=
  jaggedLoop center baseRadius (2 * Real.pi / jaggedPointCount) (jaggedness / 100)
    jaggedPointCount 0 seedValue

/-! ### VectorExportEncoder (`exportToDXF`, src/unnamed/part_001
lines 437-548) -/

/-- A DXF export primitive: a straight line segment or a point entity. -/
inductive ExportPrim where
  | line (x1 y1 x2 y2 : ℝ)
  | dot (x y : ℝ)

/-- The jagged-circle boundary record over `ℝ`, as consumed by the export. -/
structure RCircle where
  center : ℝ × ℝ
  baseRadius : ℝ
  jaggedPoints : List (ℝ × ℝ)

/-- The component state read by `exportToDXF`, with the outputs of the
external `d3-delaunay` library entering as parameters: `cells i` is
`voronoi.cellPolygon(i)` (the empty list for a missing cell) and
`triangles` is the flat `delaunay.triangles` index array (whose length is
a multiple of 3). -/
structure ExportCfg where
  width : ℝ
  height : ℝ
  useCustomShape : Bool
  customCircle : Option RCircle
  circleDiameterMM : ℝ
  borderOffset : ℝ
  exportVoronoi : Bool
  exportDelaunay : Bool
  exportPoints : Bool
  exportDoubleBorder : Bool
  exportBoundary : Bool
  cells : ℕ → List (ℝ × ℝ)
  triangles : List ℕ

/-- The closed polygon `poly`, scaled by `s` and emitted as its
`poly.length` line segments `vertex[j] → vertex[(j+1) % length]`. -/
noncomputable def segmentPrims (s : ℝ) (poly : List (ℝ × ℝ)) : List ExportPrim :=
  (List.range poly.length).map fun j =>
    let a := poly.getD j (0, 0)
    let b := poly.getD ((j + 1) % poly.length) (0, 0)
    ExportPrim.line (a.1 * s) (a.2 * s) (b.1 * s) (b.2 * s)

/-- `exportToDXF`.  The source returns early, without creating a drawing
and without raising any error, when the point set is empty; this outcome
is modelled as `none` (the source function has no error path at all).
Otherwise the selected primitive groups are emitted in source order:
Voronoi cells, Delaunay triangles, inset double border, points, boundary. -/
noncomputable def exportToDXF (points : List (ℝ × ℝ)) (cfg : ExportCfg) :
    Option (List ExportPrim) :=
  if points.length = 0 then none
  else
    let scaleFactor : ℝ :=
      match cfg.useCustomShape, cfg.customCircle with
      | true, some c => cfg.circleDiameterMM / (c.baseRadius * 2)
      | _, _ => 1
    let voronoiPrims :=
      if cfg.exportVoronoi then
        ((List.range points.length).map fun i =>
          let cell := cfg.cells i
          if 2 < cell.length then segmentPrims scaleFactor cell else []).flatten
      else []
    let delaunayPrims :=
      if cfg.exportDelaunay then
        ((List.range (cfg.triangles.length / 3)).map fun t =>
          let p1 := points.getD (cfg.triangles.getD (3 * t) 0) (0, 0)
          let p2 := points.getD (cfg.triangles.getD (3 * t + 1) 0) (0, 0)
          let p3 := points.getD (cfg.triangles.getD (3 * t + 2) 0) (0, 0)
          [ExportPrim.line (p1.1 * scaleFactor) (p1.2 * scaleFactor)
             (p2.1 * scaleFactor) (p2.2 * scaleFactor),
           ExportPrim.line (p2.1 * scaleFactor) (p2.2 * scaleFactor)
             (p3.1 * scaleFactor) (p3.2 * scaleFactor),
           ExportPrim.line (p3.1 * scaleFactor) (p3.2 * scaleFactor)
             (p1.1 * scaleFactor) (p1.2 * scaleFactor)]).flatten
      else []
    let doubleBorderPrims :=
      if cfg.exportDoubleBorder then
        ((List.range points.length).map fun i =>
          let cell := cfg.cells i
          if 2 < cell.length then
            segmentPrims scaleFactor (createInsetPolygon cell cfg.borderOffset)
          else []).flatten
      else []
    let pointPrims :=
      if cfg.exportPoints then
        points.map fun p => ExportPrim.dot (p.1 * scaleFactor) (p.2 * scaleFactor)
      else []
    let boundaryPrims :=
      match cfg.useCustomShape, cfg.customCircle, cfg.exportBoundary with
      | true, some c, true =>
        if c.jaggedPoints.length ≠ 0 then segmentPrims scaleFactor c.jaggedPoints
        else
          (List.range 64).map fun i =>
            let i2 : ℕ := (i + 1) % 64
            let a1 := (i : ℝ) * (2 * Real.pi / 64)
            let a2 := (i2 : ℝ) * (2 * Real.pi / 64)
            ExportPrim.line ((c.center.1 + c.baseRadius * Real.cos a1) * scaleFactor)
              ((c.center.2 + c.baseRadius * Real.sin a1) * scaleFactor)
              ((c.center.1 + c.baseRadius * Real.cos a2) * scaleFactor)
              ((c.center.2 + c.baseRadius * Real.sin a2) * scaleFactor)
      | _, _, _ => []
    some (voronoiPrims ++ delaunayPrims ++ doubleBorderPrims ++ pointPrims ++
      boundaryPrims)

/-! ## Helper lemmas -/

lemma seededRandomRun_closed_form (seed : ℤ) (n : ℕ) :
    seededRandomRun seed n =
      (List.range n).map fun k => seedOutput (seedStep^[k + 1] seed) := by
  induction n generalizing seed with
  | zero => rfl
  | succ n ih =>
    rw [List.range_succ_eq_map, List.map_cons, List.map_map]
    show seedOutput (seedStep seed) :: seededRandomRun (seedStep seed) n = _
    rw [ih (seedStep seed)]
    refine congrArg₂ List.cons rfl ?_
    refine List.map_congr_left fun k _ => ?_
    show seedOutput (seedStep^[k + 1] (seedStep seed)) = _
    rw [← Function.iterate_succ_apply]
    rfl

lemma seedStep_bounds {seed : ℤ} (h : 0 ≤ seed) :
    0 ≤ seedStep seed ∧ seedStep seed < 233280 := by
  unfold seedStep
  constructor
  · exact Int.tmod_nonneg _ (by positivity)
  · exact Int.tmod_lt_of_pos _ (by norm_num)

lemma seededRandomRun_mem_unit {seed : ℤ} (h : 0 ≤ seed) (n : ℕ) :
    ∀ q ∈ seededRandomRun seed n, 0 ≤ q ∧ q < 1 := by
  induction n generalizing seed with
  | zero => intro q hq; simp [seededRandomRun] at hq
  | succ n ih =>
    intro q hq
    obtain ⟨h1, h2⟩ := seedStep_bounds h
    rw [seededRandomRun] at hq
    rcases List.mem_cons.mp hq with hq | hq
    · subst hq
      unfold seedOutput
      constructor
      · positivity
      · rw [div_lt_one (by norm_num)]
        exact_mod_cast h2
    · exact ih h1 q hq

lemma sampleLoop_attempts_le (cfg : SamplerCfg) (cand : ℕ → ℤ → Pt × ℤ)
    (remaining : ℤ) :
    ∀ fuel i s, (sampleLoop cfg cand remaining fuel i s).2 ≤ fuel := by
  intro fuel
  induction fuel with
  | zero => intro i s; simp [sampleLoop]
  | succ fuel ih =>
    intro i s
    rw [sampleLoop]
    split
    · split
      · simpa using Nat.succ_le_succ (ih (i + 1) _)
      · simpa using Nat.succ_le_succ (ih i _)
    · simp

lemma sampleLoop_length_le (cfg : SamplerCfg) (cand : ℕ → ℤ → Pt × ℤ)
    (remaining : ℤ) :
    ∀ fuel i s,
      ((sampleLoop cfg cand remaining fuel i s).1).length ≤ (remaining - i).toNat := by
  intro fuel
  induction fuel with
  | zero => intro i s; simp [sampleLoop]
  | succ fuel ih =>
    intro i s
    rw [sampleLoop]
    split
    · split
      · have := ih (i + 1) ((cand i s).2)
        simp only [List.length_cons]
        omega
      · have := ih i ((cand i s).2)
        simpa using this
    · simp

lemma sampleLoop_reject_all (cfg : SamplerCfg) (cand : ℕ → ℤ → Pt × ℤ)
    (remaining : ℤ) (hrej : ∀ p, acceptPoint cfg p = false) :
    ∀ fuel i s, (sampleLoop cfg cand remaining fuel i s).1 = [] := by
  intro fuel
  induction fuel with
  | zero => intro i s; simp [sampleLoop]
  | succ fuel ih =>
    intro i s
    rw [sampleLoop]
    split
    · rw [hrej]
      simp only [Bool.false_eq_true, if_false]
      exact ih i _
    · rfl

lemma generateRandomPoints_cons (cfg : SamplerCfg) (count : ℕ) (seedValue : ℤ) :
    ∃ rest, generateRandomPoints cfg count seedValue = centerPoint cfg :: rest :=
  ⟨_, rfl⟩

/-- A plain sampler configuration: default canvas, no custom boundary. -/
def cfgBasic : SamplerCfg := ⟨800, 600, false, none, 65⟩

/-- A sampler configuration with an active custom boundary circle. -/
def cfgCustom : SamplerCfg := ⟨800, 600, true, some ⟨⟨400, 300⟩, 120, []⟩, 65⟩

/-- A sampler configuration whose custom boundary rejects every candidate
(the fallback circle test `distance ≤ baseRadius` never holds for a
negative radius), so only the reserved center point survives. -/
def cfgBlocked : SamplerCfg := ⟨800, 600, true, some ⟨⟨400, 300⟩, -1, []⟩, 0⟩

/-! ## Claims -/

/-- Claim C1: for every integer seed and call count `n`, two seeded
generators constructed with the same seed return identical sequences of
`n` values; moreover the sequence is a pure function of the seed and the
call index alone (the `k`-th value is `seedOutput` of the `(k+1)`-fold
iterate of `seedStep` on the seed), so no other input influences it. -/
theorem seededRng_identical_sequences (s1 s2 : ℤ) (n : ℕ) (h : s1 = s2) :
    seededRandomRun s1 n = seededRandomRun s2 n ∧
    seededRandomRun s1 n =
      (List.range n).map fun k => seedOutput (seedStep^[k + 1] s1) :=
  ⟨by rw [h], seededRandomRun_closed_form s1 n⟩

/-- Witness for C1 at seed `123456789` and `n = 3`. -/
theorem seededRng_identical_sequences_witness :
    seededRandomRun 123456789 3 = seededRandomRun 123456789 3 ∧
    seededRandomRun 123456789 3 =
      (List.range 3).map fun k => seedOutput (seedStep^[k + 1] 123456789) :=
  seededRng_identical_sequences 123456789 123456789 3 rfl

/-- Counterexample for C5 as stated: at the integer seed `-10` the first
call returns `-43713 / 233280 < 0` (JavaScript `%` keeps the sign of the
dividend), which is not in `[0, 1)`. -/
theorem seededRng_negative_seed_output_cex :
    ∃ q ∈ seededRandomRun (-10) 1, q < 0 := by
  have hs : seedStep (-10) = -43713 := by decide
  have h1 : seededRandomRun (-10) 1 = [seedOutput (-43713)] := by
    show seedOutput (seedStep (-10)) :: seededRandomRun (seedStep (-10)) 0 = _
    rw [hs]
    rfl
  rw [h1]
  refine ⟨seedOutput (-43713), List.mem_cons_self _ _, ?_⟩
  norm_num [seedOutput]

/-- Claim C5 (amended): for every NONNEGATIVE integer seed, every value
returned by the seeded generator lies in `[0, 1)`, and the values follow
the linear-congruential recurrence
`state = (state * 9301 + 49297) mod 233280` with output `state / 233280`
(for negative seeds the truncated `mod` can produce negative outputs). -/
theorem seededRng_range_and_recurrence (seed : ℤ) (n : ℕ) (h : 0 ≤ seed) :
    (∀ q ∈ seededRandomRun seed n, 0 ≤ q ∧ q < 1) ∧
    seededRandomRun seed n =
      (List.range n).map fun k => seedOutput (seedStep^[k + 1] seed) :=
  ⟨seededRandomRun_mem_unit h n, seededRandomRun_closed_form seed n⟩

/-- Witness for the amended C5 at seed `7` and `n = 2`. -/
theorem seededRng_range_and_recurrence_witness :
    (∀ q ∈ seededRandomRun 7 2, 0 ≤ q ∧ q < 1) ∧
    seededRandomRun 7 2 =
      (List.range 2).map fun k => seedOutput (seedStep^[k + 1] 7) :=
  seededRng_range_and_recurrence 7 2 (by decide)

/-- Claim C10: calling the sampler with requested count `0` still returns
exactly one point, the unconditionally inserted center point, so the
output size exceeds the requested count. -/
theorem sampler_count_zero_returns_center (cfg : SamplerCfg) (seedValue : ℤ) :
    generateRandomPoints cfg 0 seedValue = [centerPoint cfg] ∧
    0 < (generateRandomPoints cfg 0 seedValue).length := by
  have h : generateRandomPoints cfg 0 seedValue = [centerPoint cfg] := by
    simp [generateRandomPoints, generateRandomPointsRun, sampleLoop]
  exact ⟨h, by rw [h]; simp⟩

/-- Counterexample for C3 as stated: with requested count `C = 0` the
sampler returns 1 point, so "returns at most C points" fails at `C = 0`
(the center point is inserted unconditionally). -/
theorem sampler_count_zero_exceeds_request_cex :
    (generateRandomPoints cfgBasic 0 3).length = 1 ∧
    ¬ (generateRandomPoints cfgBasic 0 3).length ≤ 0 := by
  have h : generateRandomPoints cfgBasic 0 3 = [centerPoint cfgBasic] := by
    simp [generateRandomPoints, generateRandomPointsRun, sampleLoop]
  rw [h]
  simp

/-- Claim C3 (amended): for every requested count `C ≥ 1`, seed, canvas
size and boundary region, the sampler executes at most `10 × C` candidate
attempts in total across the whole pass and returns at most `C` points;
and there are inputs (a restrictive boundary) on which it returns fewer
than `C` points.  The model is a total function (the attempt cap is the
structural recursion fuel), so the sampler neither loops nor throws. -/
theorem sampler_attempt_cap_and_size (cfg : SamplerCfg) (count : ℕ)
    (seedValue : ℤ) (h : 1 ≤ count) :
    samplerAttempts cfg count seedValue ≤ 10 * count ∧
    (generateRandomPoints cfg count seedValue).length ≤ count ∧
    ∃ cfg2 count2 seed2, 1 ≤ count2 ∧
      (generateRandomPoints cfg2 count2 seed2).length < count2 := by
  refine ⟨?_, ?_, ?_⟩
  · simp only [samplerAttempts, generateRandomPointsRun]
    split
    · refine Nat.le_trans (sampleLoop_attempts_le cfg _ _ _ 0 seedValue) ?_
      omega
    · refine Nat.le_trans (sampleLoop_attempts_le cfg _ _ _ 0 seedValue) ?_
      omega
  · simp only [generateRandomPoints, generateRandomPointsRun, List.length_cons]
    split
    · refine Nat.le_trans (Nat.add_le_add_right
        (sampleLoop_length_le cfg _ _ _ 0 seedValue) 1) ?_
      omega
    · refine Nat.le_trans (Nat.add_le_add_right
        (sampleLoop_length_le cfg _ _ _ 0 seedValue) 1) ?_
      omega
  · refine ⟨cfgBlocked, 2, 1, by norm_num, ?_⟩
    have hshape : ∀ p : Pt, isPointInCustomShape cfgBlocked p = false := by
      intro p
      norm_num [isPointInCustomShape, cfgBlocked, isPointInJaggedCircle]
    have hrej : ∀ p, acceptPoint cfgBlocked p = false := by
      intro p
      simp [acceptPoint, hshape p]
      intro h1 h2 h3 h4
      have := hshape p
      simp [cfgBlocked] at this ⊢
    have hres : generateRandomPoints cfgBlocked 2 1 = [centerPoint cfgBlocked] := by
      simp only [generateRandomPoints, generateRandomPointsRun]
      split
      · rw [sampleLoop_reject_all cfgBlocked _ _ hrej]
      · rw [sampleLoop_reject_all cfgBlocked _ _ hrej]
    rw [hres]
    simp

/-- Witness for the amended C3 at a concrete configuration with `C = 5`. -/
theorem sampler_attempt_cap_and_size_witness :
    samplerAttempts cfgBasic 5 3 ≤ 10 * 5 ∧
    (generateRandomPoints cfgBasic 5 3).length ≤ 5 ∧
    ∃ cfg2 count2 seed2, 1 ≤ count2 ∧
      (generateRandomPoints cfg2 count2 seed2).length < count2 :=
  sampler_attempt_cap_and_size cfgBasic 5 3 (by norm_num)

/-- Claim C4: whenever the custom boundary is active, the first point
returned by the sampler is the custom circle's center, for every requested
count `C ≥ 1`, seed and randomness factor. -/
theorem sampler_first_point_is_custom_center (cfg : SamplerCfg) (count : ℕ)
    (seedValue : ℤ) (c : JaggedCircle) (h1 : cfg.useCustomShape = true)
    (h2 : cfg.customCircle = some c) (h3 : 1 ≤ count) :
    (generateRandomPoints cfg count seedValue).head? = some c.center := by
  obtain ⟨rest, hr⟩ := generateRandomPoints_cons cfg count seedValue
  rw [hr, List.head?_cons]
  simp [centerPoint, h1, h2]

/-- Witness for C4 on a concrete active-boundary configuration. -/
theorem sampler_first_point_is_custom_center_witness :
    (generateRandomPoints cfgCustom 5 1).head? = some (⟨400, 300⟩ : Pt) :=
  sampler_first_point_is_custom_center cfgCustom 5 1 ⟨⟨400, 300⟩, 120, []⟩
    rfl rfl (by norm_num)

/-- Counterexample for C6 as stated: a jagged-circle boundary with an
EMPTY vertex ring (0 < 3 vertices) does not default to `true`; it falls
back to the base-circle distance test, which rejects the point `(5, 5)`
against a circle of radius 1 at the origin. -/
theorem containment_empty_jagged_ring_cex :
    ([] : List Pt).length < 3 ∧
    isPointInJaggedCircle ⟨5, 5⟩ ⟨⟨0, 0⟩, 1, []⟩ = false := by
  refine ⟨by norm_num, ?_⟩
  norm_num [isPointInJaggedCircle]

/-- Claim C6 (amended): a plain polygon with fewer than 3 vertices is
treated as unconstrained (`true`), and so is a jagged-circle ring with 1
or 2 vertices; a jagged-circle ring with 0 vertices instead falls back to
the exact base-circle distance test.  All tests are total functions
(no crash, no loop). -/
theorem containment_degenerate_boundaries (p : Pt) (poly : List Pt)
    (c : JaggedCircle) :
    (poly.length < 3 → isPointInPolygon p poly = true) ∧
    (c.jaggedPoints ≠ [] → c.jaggedPoints.length < 3 →
      isPointInJaggedCircle p c = true) ∧
    (c.jaggedPoints = [] → isPointInJaggedCircle p c =
      decide (0 ≤ c.baseRadius ∧
        (p.x - c.center.x) * (p.x - c.center.x) +
          (p.y - c.center.y) * (p.y - c.center.y) ≤
            c.baseRadius * c.baseRadius)) := by
  refine ⟨?_, ?_, ?_⟩
  · intro h
    simp [isPointInPolygon, h]
  · intro hne h
    have hlen : ¬ c.jaggedPoints.length = 0 := by simpa using hne
    simp [isPointInJaggedCircle, hlen, isPointInPolygon, h]
  · intro he
    simp [isPointInJaggedCircle, he]

/-- Witness for the amended C6: an empty polygon and a 2-vertex jagged
ring are both treated as unconstrained. -/
theorem containment_degenerate_boundaries_witness :
    isPointInPolygon ⟨1, 1⟩ [] = true ∧
    isPointInJaggedCircle ⟨1, 1⟩ ⟨⟨0, 0⟩, 5, [⟨1, 1⟩, ⟨2, 2⟩]⟩ = true :=
  ⟨(containment_degenerate_boundaries ⟨1, 1⟩ [] ⟨⟨0, 0⟩, 5, []⟩).1 (by norm_num),
   (containment_degenerate_boundaries ⟨1, 1⟩ []
      ⟨⟨0, 0⟩, 5, [⟨1, 1⟩, ⟨2, 2⟩]⟩).2.1 (by simp) (by norm_num)⟩

/-- Claim C2 (spec-modelled): every triangle of the Delaunay triangulation
has an empty circumcircle — no input point other than the triangle's own
vertices lies strictly inside it. -/
theorem delaunay_triangle_empty_circumcircle (pts : List Pt) (i j k m : ℕ)
    (ht : (i, j, k) ∈ delaunayTriangles pts) (hm : m < pts.length)
    (hi : m ≠ i) (hj : m ≠ j) (hk : m ≠ k) :
    ¬ strictlyInsideCircumcircle (pts.getD i ⟨0, 0⟩) (pts.getD j ⟨0, 0⟩)
      (pts.getD k ⟨0, 0⟩) (pts.getD m ⟨0, 0⟩) := by
  have hcond := (List.mem_filter.mp ht).2
  simp only [Bool.and_eq_true] at hcond
  have hok := hcond.2
  unfold triangleOk at hok
  rw [Bool.and_eq_true, List.all_eq_true] at hok
  have h3 := hok.2 m (List.mem_range.mpr hm)
  simp only [Bool.or_eq_true, decide_eq_true_eq, Bool.not_eq_true',
    decide_eq_false_iff_not] at h3
  rcases h3 with ((h | h) | h) | h
  · exact absurd h hi
  · exact absurd h hj
  · exact absurd h hk
  · exact h

/-- Witness for C2: on the four corners of a square, the triangle
`(0, 1, 2)` belongs to the modelled triangulation and the remaining corner
is not strictly inside its circumcircle. -/
theorem delaunay_triangle_empty_circumcircle_witness :
    (0, 1, 2) ∈ delaunayTriangles pts4 ∧
    ¬ strictlyInsideCircumcircle (pts4.getD 0 ⟨0, 0⟩) (pts4.getD 1 ⟨0, 0⟩)
      (pts4.getD 2 ⟨0, 0⟩) (pts4.getD 3 ⟨0, 0⟩) := by
  have htri : triangleOk pts4 0 1 2 = true := by
    unfold triangleOk
    rw [Bool.and_eq_true]
    constructor
    · rw [decide_eq_true_eq]
      norm_num [pts4, orient]
    · rw [List.all_eq_true]
      intro m hm
      rw [show pts4.length = 4 from rfl, List.mem_range] at hm
      interval_cases m
      · simp
      · simp
      · simp
      · simp only [Bool.or_eq_true, decide_eq_true_eq, Bool.not_eq_true',
          decide_eq_false_iff_not]
        norm_num [pts4, strictlyInsideCircumcircle, orient, inCircleDet]
  have hmem : ((0, 1, 2) : ℕ × ℕ × ℕ) ∈ delaunayTriangles pts4 := by
    refine List.mem_filter.mpr ⟨?_, ?_⟩
    · simp only [List.mem_flatMap, List.mem_map, List.mem_range]
      exact ⟨0, by simp [pts4], 1, by simp [pts4], 2, by simp [pts4], rfl⟩
    · rw [Bool.and_eq_true, Bool.and_eq_true]
      exact ⟨⟨by norm_num, by norm_num⟩, htri⟩
  refine ⟨hmem, ?_⟩
  exact delaunay_triangle_empty_circumcircle pts4 0 1 2 3 hmem (by simp [pts4])
    (by norm_num) (by norm_num) (by norm_num)

/-! ## Real-valued helper lemmas -/

lemma ptDist_pos {a b : ℝ × ℝ} (h : a ≠ b) : 0 < ptDist a b := by
  unfold ptDist
  rw [Real.sqrt_pos]
  have h1 : a.1 - b.1 ≠ 0 ∨ a.2 - b.2 ≠ 0 := by
    by_contra hc
    push_neg at hc
    obtain ⟨h1, h2⟩ := hc
    exact h (Prod.ext_iff.mpr ⟨by linarith [sub_eq_zero.mp h1], by linarith [sub_eq_zero.mp h2]⟩)
  rcases h1 with h1 | h1
  · nlinarith [mul_self_pos.mpr h1, mul_self_nonneg (a.2 - b.2)]
  · nlinarith [mul_self_pos.mpr h1, mul_self_nonneg (a.1 - b.1)]

lemma ptDist_nonneg (a b : ℝ × ℝ) : 0 ≤ ptDist a b :=
  Real.sqrt_nonneg _

lemma effRadius_nonneg (prev current next : ℝ × ℝ) {radius : ℝ} (h : 0 ≤ radius) :
    0 ≤ effRadius prev current next radius :=
  le_min h (le_min (div_nonneg (ptDist_nonneg _ _) (by norm_num))
    (div_nonneg (ptDist_nonneg _ _) (by norm_num)))

lemma ptDist_cornerStartPt (nb current : ℝ × ℝ) (e : ℝ) (h : nb ≠ current)
    (he : 0 ≤ e) : ptDist (cornerStartPt nb current e) current = e := by
  have hL : 0 < ptDist nb current := ptDist_pos h
  have hS : 0 < (nb.1 - current.1) * (nb.1 - current.1) +
      (nb.2 - current.2) * (nb.2 - current.2) := Real.sqrt_pos.mp hL
  have hLL : ptDist nb current * ptDist nb current =
      (nb.1 - current.1) * (nb.1 - current.1) +
        (nb.2 - current.2) * (nb.2 - current.2) := Real.mul_self_sqrt hS.le
  show Real.sqrt _ = e
  rw [show ((cornerStartPt nb current e).1 - current.1) *
        ((cornerStartPt nb current e).1 - current.1) +
        ((cornerStartPt nb current e).2 - current.2) *
          ((cornerStartPt nb current e).2 - current.2) =
      e * e * (((nb.1 - current.1) * (nb.1 - current.1) +
        (nb.2 - current.2) * (nb.2 - current.2)) /
          (ptDist nb current * ptDist nb current)) from by
    simp only [cornerStartPt]
    ring]
  rw [hLL, div_self hS.ne', mul_one]
  exact Real.sqrt_mul_self he

lemma cornerBlock_not_degenerate {prev current next : ℝ × ℝ} (hp : prev ≠ current)
    (hn : next ≠ current) :
    ¬ (ptDist prev current = 0 ∨ ptDist next current = 0) := by
  rintro (h | h)
  · exact (ptDist_pos hp).ne' h
  · exact (ptDist_pos hn).ne' h

lemma cornerBlock_length {prev current next : ℝ × ℝ} (radius : ℝ)
    (hp : prev ≠ current) (hn : next ≠ current) :
    (cornerBlock prev current next radius).length = 9 := by
  simp only [cornerBlock]
  rw [if_neg (cornerBlock_not_degenerate hp hn)]
  rw [List.length_map, List.length_range]

lemma cornerArcPoint_zero (prev current next : ℝ × ℝ) (radius : ℝ) :
    cornerArcPoint prev current next radius 0 =
      cornerStartPt prev current (effRadius prev current next radius) := by
  simp only [cornerArcPoint]
  norm_num [Real.sin_zero]

lemma cornerArcPoint_eight (prev current next : ℝ × ℝ) (radius : ℝ) :
    cornerArcPoint prev current next radius 8 =
      cornerStartPt next current (effRadius prev current next radius) := by
  simp only [cornerArcPoint]
  norm_num [Real.sin_pi]

lemma cornerBlock_head {prev current next : ℝ × ℝ} (radius : ℝ)
    (hp : prev ≠ current) (hn : next ≠ current) :
    (cornerBlock prev current next radius).head? =
      some (cornerStartPt prev current (effRadius prev current next radius)) := by
  simp only [cornerBlock]
  rw [if_neg (cornerBlock_not_degenerate hp hn)]
  rw [show List.range (8 + 1) = 0 :: [1, 2, 3, 4, 5, 6, 7, 8] from by decide]
  rw [List.map_cons, List.head?_cons, cornerArcPoint_zero]

lemma cornerBlock_getLast {prev current next : ℝ × ℝ} (radius : ℝ)
    (hp : prev ≠ current) (hn : next ≠ current) :
    (cornerBlock prev current next radius).getLast? =
      some (cornerStartPt next current (effRadius prev current next radius)) := by
  simp only [cornerBlock]
  rw [if_neg (cornerBlock_not_degenerate hp hn)]
  rw [show List.range (8 + 1) = [0, 1, 2, 3, 4, 5, 6, 7] ++ [8] from by decide]
  rw [List.map_append, List.map_singleton, List.getLast?_concat, cornerArcPoint_eight]

lemma jaggedLoop_length (center : ℝ × ℝ) (r aStep f : ℝ) :
    ∀ n i s, (jaggedLoop center r aStep f n i s).length = n := by
  intro n
  induction n with
  | zero => intro i s; simp [jaggedLoop]
  | succ n ih =>
    intro i s
    rw [jaggedLoop]
    simpa using ih (i + 1) (seedStep s)

lemma jaggedLoop_zero_factor (center : ℝ × ℝ) (r aStep : ℝ) (hr : 0 ≤ r) :
    ∀ n i s, ∀ v ∈ jaggedLoop center r aStep 0 n i s, ptDist v center = r := by
  intro n
  induction n with
  | zero => intro i s v hv; simp [jaggedLoop] at hv
  | succ n ih =>
    intro i s v hv
    rw [jaggedLoop] at hv
    rcases List.mem_cons.mp hv with hv | hv
    · have hv1 : v.1 = center.1 +
          (r + ((seedOutput (seedStep s) : ℚ) : ℝ) * 0) *
            Real.cos ((i : ℝ) * aStep) := by rw [hv]; ring_nf
      have hsimp : v = (center.1 + r * Real.cos ((i : ℝ) * aStep),
          center.2 + r * Real.sin ((i : ℝ) * aStep)) := by
        rw [hv]
        refine Prod.ext_iff.mpr ⟨?_, ?_⟩ <;> · show _ = _; ring_nf
      rw [hsimp]
      show Real.sqrt _ = r
      rw [show (center.1 + r * Real.cos ((i : ℝ) * aStep) - center.1) *
            (center.1 + r * Real.cos ((i : ℝ) * aStep) - center.1) +
            (center.2 + r * Real.sin ((i : ℝ) * aStep) - center.2) *
              (center.2 + r * Real.sin ((i : ℝ) * aStep) - center.2) = r ^ 2 from by
        linear_combination (r ^ 2) * Real.cos_sq_add_sin_sq ((i : ℝ) * aStep)]
      exact Real.sqrt_sq hr
    · exact ih (i + 1) (seedStep s) v hv

/-- A concrete right triangle with edge lengths 3, 4, 5, used to exercise
the corner-rounding step. -/
def triR : List (ℝ × ℝ) := [(0, 0), (4, 0), (0, 3)]

/-- The export configuration used to exercise the export guard. -/
noncomputable def cfgExport : ExportCfg :=
  ⟨800, 600, false, none, 100, 8, false, false, false, false, false,
    fun _ => [], []⟩

/-- Counterexample for C7 as stated: on a concrete triangle whose three
corners all have nonzero adjacent edges, the rounding step emits 9 points
per corner (27 in total), not 8 per corner (24) and not 8 strictly
between the two corner-offset points plus the offsets themselves (30). -/
theorem rounding_emits_nine_points_cex :
    (createRoundedPolygonPoints triR 1).length = 27 ∧
    (createRoundedPolygonPoints triR 1).length ≠ 3 * 8 ∧
    (createRoundedPolygonPoints triR 1).length ≠ 3 * 10 := by
  have e0 : (cornerBlock ((0 : ℝ), (3 : ℝ)) (0, 0) (4, 0) 1).length = 9 :=
    cornerBlock_length 1 (by norm_num) (by norm_num)
  have e1 : (cornerBlock ((0 : ℝ), (0 : ℝ)) (4, 0) (0, 3) 1).length = 9 :=
    cornerBlock_length 1
      (by intro hc; have h4 := congrArg Prod.fst hc; norm_num [Prod.fst_zero] at h4)
      (by norm_num)
  have e2 : (cornerBlock ((4 : ℝ), (0 : ℝ)) (0, 3) (0, 0) 1).length = 9 :=
    cornerBlock_length 1 (by norm_num)
      (by intro hc; have h4 := congrArg Prod.snd hc; norm_num [Prod.snd_zero] at h4)
  have hsplit : createRoundedPolygonPoints triR 1 =
      cornerBlock ((0 : ℝ), (3 : ℝ)) (0, 0) (4, 0) 1 ++
        (cornerBlock ((0 : ℝ), (0 : ℝ)) (4, 0) (0, 3) 1 ++
          (cornerBlock ((4 : ℝ), (0 : ℝ)) (0, 3) (0, 0) 1 ++ [])) := by
    simp only [createRoundedPolygonPoints]
    rw [if_neg (by norm_num [triR])]
    rw [show List.range triR.length = [0, 1, 2] from by decide]
    norm_num [triR, List.getD_cons_zero, List.getD_cons_succ]
  rw [hsplit]
  simp only [List.length_append, List.length_nil, e0, e1, e2]
  norm_num

/-- Claim C7 (amended): at each vertex whose two adjacent edges have
nonzero length, the rounding step emits exactly 9 points (8 segments):
the first is the corner-offset point toward the previous neighbor, the
last the corner-offset point toward the next neighbor, and (for a
nonnegative rounding radius) both offsets lie at distance
`min(ρ, prevLength / 2, nextLength / 2)` from the vertex. -/
theorem rounding_corner_block_shape (prev current next : ℝ × ℝ) (radius : ℝ)
    (hp : prev ≠ current) (hn : next ≠ current) (hr : 0 ≤ radius) :
    (cornerBlock prev current next radius).length = 9 ∧
    (cornerBlock prev current next radius).head? =
      some (cornerStartPt prev current (effRadius prev current next radius)) ∧
    (cornerBlock prev current next radius).getLast? =
      some (cornerStartPt next current (effRadius prev current next radius)) ∧
    ptDist (cornerStartPt prev current (effRadius prev current next radius))
        current = effRadius prev current next radius ∧
    ptDist (cornerStartPt next current (effRadius prev current next radius))
        current = effRadius prev current next radius ∧
    effRadius prev current next radius =
      min radius (min (ptDist prev current / 2) (ptDist next current / 2)) :=
  ⟨cornerBlock_length radius hp hn, cornerBlock_head radius hp hn,
   cornerBlock_getLast radius hp hn,
   ptDist_cornerStartPt _ _ _ hp (effRadius_nonneg _ _ _ hr),
   ptDist_cornerStartPt _ _ _ hn (effRadius_nonneg _ _ _ hr), rfl⟩

/-- Witness for the amended C7 at a concrete corner of the 3-4-5 triangle
with rounding radius 1. -/
theorem rounding_corner_block_shape_witness :
    (cornerBlock ((0 : ℝ), (3 : ℝ)) (0, 0) (4, 0) 1).length = 9 ∧
    (cornerBlock ((0 : ℝ), (3 : ℝ)) (0, 0) (4, 0) 1).head? =
      some (cornerStartPt (0, 3) (0, 0) (effRadius (0, 3) (0, 0) (4, 0) 1)) ∧
    (cornerBlock ((0 : ℝ), (3 : ℝ)) (0, 0) (4, 0) 1).getLast? =
      some (cornerStartPt (4, 0) (0, 0) (effRadius (0, 3) (0, 0) (4, 0) 1)) ∧
    ptDist (cornerStartPt (0, 3) (0, 0) (effRadius (0, 3) (0, 0) (4, 0) 1))
        (0, 0) = effRadius (0, 3) (0, 0) (4, 0) 1 ∧
    ptDist (cornerStartPt (4, 0) (0, 0) (effRadius (0, 3) (0, 0) (4, 0) 1))
        (0, 0) = effRadius (0, 3) (0, 0) (4, 0) 1 ∧
    effRadius (0, 3) (0, 0) (4, 0) 1 =
      min 1 (min (ptDist (0, 3) (0, 0) / 2) (ptDist (4, 0) (0, 0) / 2)) :=
  rounding_corner_block_shape (0, 3) (0, 0) (4, 0) 1 (by norm_num) (by norm_num)
    (by norm_num)

/-- Counterexample for C8 as stated: calling the export with an empty
point set completes silently — the modelled outcome is `none` (the early
`return` that creates no drawing), and the source function has no error
path at all, so no error is observable by the caller. -/
theorem export_empty_points_silent_cex :
    exportToDXF [] cfgExport = none := by
  rw [exportToDXF]
  rfl

/-- Claim C8 (amended): an export request with an empty point set is
silently ignored, not surfaced as an error: the function returns early
producing no drawing (modelled `none`) and raising no error, and it
produces a drawing for every nonempty point set. -/
theorem export_none_iff_empty (points : List (ℝ × ℝ)) (cfg : ExportCfg) :
    exportToDXF points cfg = none ↔ points = [] := by
  rw [exportToDXF]
  split
  · next h => exact iff_of_true rfl (List.length_eq_zero.mp h)
  · next h =>
    refine iff_of_false (by simp) fun he => h ?_
    rw [he]
    rfl

/-- Claim C9: with jaggedness 0 the jagged-boundary generator emits `N`
vertices that all lie exactly on the base circle: each vertex's distance
from the center equals the base radius (which the spec requires to be
positive), regardless of the RNG draws consumed. -/
theorem jagged_zero_jaggedness_on_circle (center : ℝ × ℝ) (baseRadius : ℝ)
    (N : ℕ) (seedValue : ℤ) (hr : 0 ≤ baseRadius) :
    (generateJaggedCircle center baseRadius N 0 seedValue).length = N ∧
    ∀ v ∈ generateJaggedCircle center baseRadius N 0 seedValue,
      ptDist v center = baseRadius := by
  constructor
  · exact jaggedLoop_length center baseRadius _ _ N 0 seedValue
  · intro v hv
    unfold generateJaggedCircle at hv
    rw [show (0 : ℝ) / 100 = 0 from by norm_num] at hv
    exact jaggedLoop_zero_factor center baseRadius _ hr N 0 seedValue v hv

/-- Witness for C9 at the unit circle with 3 vertices and seed 5. -/
theorem jagged_zero_jaggedness_on_circle_witness :
    (generateJaggedCircle ((0 : ℝ), (0 : ℝ)) 1 3 0 5).length = 3 ∧
    ptDist ((generateJaggedCircle ((0 : ℝ), (0 : ℝ)) 1 3 0 5).headD (0, 0))
      (0, 0) = 1 := by
  have h := jagged_zero_jaggedness_on_circle (0, 0) 1 3 5 (by norm_num)
  refine ⟨h.1, ?_⟩
  rcases hh : generateJaggedCircle ((0 : ℝ), (0 : ℝ)) 1 3 0 5 with _ | ⟨a, t⟩
  · exfalso
    have h3 := h.1
    rw [hh] at h3
    simp at h3
  · rw [List.headD_cons]
    refine h.2 a ?_
    rw [hh]
    exact List.mem_cons_self a t

end VoronoiDesigner
